import Mathlib

/-!
Verification of the Superstore dashboard script (`src/site.py`).

The script loads a table of order records from a spreadsheet, coerces column
types, drops rows with missing sales/profit, and renders seven report views
(overview, products, geography, customers, discounts, shipping,
recommendations), each of which is a group-by/sum/ratio aggregation over the
raw record table.  The definitions below are a shallow embedding of that
pipeline: pandas floats are modelled by `Rat`, with `Option Rat` where a
computation can produce NaN/±infinity; dates are day counts (`Int`); a raw
spreadsheet cell that may fail to parse is a `Cell`; fatal load errors are
`Except`.
-/

/-- A raw spreadsheet cell prior to type coercion: a successfully parseable
value, an unparseable (bad) value, or an empty/missing cell. -/
inductive Cell (α : Type) where
  | val (a : α)
  | bad
  | missing
deriving DecidableEq, Repr

/-- Model of `pd.to_numeric(col, errors=coerce)` on one cell: a bad or
missing value becomes missing (NaN), never an error. -/
def toNumericCoerce {α : Type} : Cell α → Option α
  | .val a => some a
  | .bad => none
  | .missing => none

/-- Model of `pd.to_datetime(col, errors=coerce)` on one cell (used for
`Ship Date`): bad and missing values become NaT. -/
def toDatetimeCoerce {α : Type} : Cell α → Option α
  | .val a => some a
  | .bad => none
  | .missing => none

/-- Model of `pd.to_datetime(col)` with the default `errors=raise` (used for
`Order Date`): a bad value raises, a missing value becomes NaT. -/
def toDatetimeRaise {α : Type} : Cell α → Except Unit (Option α)
  | .val a => .ok (some a)
  | .bad => .error ()
  | .missing => .ok none

/-- One raw row as returned by `worksheet.get_all_records()`, before the
loader type coercion.  Dates are modelled as day counts inside their cells;
the categorical columns arrive as plain strings. -/
structure RawRecord where
  orderDate : Cell Int
  shipDate : Cell Int
  shipMode : String
  sales : Cell Rat
  profit : Cell Rat
  discount : Cell Rat
  category : String
  subCategory : String
  region : String
  state : String
  segment : String
deriving DecidableEq, Repr

/-- One order record after the loader succeeded: sales and profit are
guaranteed numeric (rows where they were missing are dropped); order date,
ship date and discount may still be missing (NaT/NaN). -/
structure Record where
  orderDate : Option Int
  shipDate : Option Int
  shipMode : String
  sales : Rat
  profit : Rat
  discount : Option Rat
  category : String
  subCategory : String
  region : String
  state : String
  segment : String
deriving DecidableEq, Repr

/-- Type-coercion step of `carregar_dados` on one row: `Order Date` via
`pd.to_datetime` (default, raising), `Ship Date` via coercing `to_datetime`,
`Sales`/`Profit`/`Discount` via coercing `to_numeric`. -/
def coerceRow (r : RawRecord) : Except Unit (Option Int × Option Int × Option Rat × Option Rat × Option Rat) := do
  let od ← toDatetimeRaise r.orderDate
  pure (od, toDatetimeCoerce r.shipDate, toNumericCoerce r.sales,
        toNumericCoerce r.profit, toNumericCoerce r.discount)

/-- The `dropna on the Sales and Profit columns` step fused with record
construction: a coerced row is kept only when both sales and profit parsed. -/
def keepRow (r : RawRecord) (c : Option Int × Option Int × Option Rat × Option Rat × Option Rat) : Option Record :=
  match c with
  | (od, sd, some s, some p, d) =>
      some ⟨od, sd, r.shipMode, s, p, d, r.category, r.subCategory, r.region, r.state, r.segment⟩
  | _ => none

/-- Model of `carregar_dados` (src/site.py lines 12-52) applied to an already
fetched table: coerce every row (an unparseable `Order Date` anywhere raises,
which the surrounding `except` turns into a fatal `st.stop`), then drop rows
whose sales or profit is missing. -/
def carregar_dados : List RawRecord → Except Unit (List Record)
  | [] => .ok []
  | r :: rs =>
      match coerceRow r with
      | .error e => .error e
      | .ok c =>
          match carregar_dados rs with
          | .error e => .error e
          | .ok rest => .ok ((keepRow r c).toList ++ rest)

/-- Model of one pandas float-division margin `(profit / sales) * 100` as
written with no zero guard (e.g. line 150): when `sales = 0` the float result
is NaN or ±infinity, modelled as `none`; otherwise the exact ratio. -/
def profitMargin (profit sales : Rat) : Option Rat :=
  if sales = 0 then none else some (profit / sales * 100)

/-- One output row of a dimension aggregation: the group key, summed sales,
summed profit, and the (possibly NaN/infinite) profit margin. -/
structure AggRow where
  key : String
  sales : Rat
  profit : Rat
  margin : Option Rat
deriving DecidableEq, Repr

/-- Group keys produced by `groupby(dim)`: the distinct values of the
dimension, one key per group.  Pandas emits them sorted; the model keeps
first-appearance order — the spec leaves the output order of grouping free
and no property below depends on it. -/
def keysOf (key : Record → String) (rs : List Record) : List String :=
  (rs.map key).dedup

/-- Summed sales of the group of records whose dimension value is `k`. -/
def groupSales (key : Record → String) (rs : List Record) (k : String) : Rat :=
  ((rs.filter fun r => key r = k).map Record.sales).sum

/-- Summed profit of the group of records whose dimension value is `k`. -/
def groupProfit (key : Record → String) (rs : List Record) (k : String) : Rat :=
  ((rs.filter fun r => key r = k).map Record.profit).sum

/-- Model of the aggregation pattern shared by the category / sub-category /
region / state / segment / ship-mode views (e.g. src/site.py lines 146-150):
`groupby(dim).agg(sales=sum, profit=sum)` followed by
`profitMargin = profit / sales * 100`. -/
def aggregateBy (key : Record → String) (rs : List Record) : List AggRow :=
  (keysOf key rs).map fun k =>
    ⟨k, groupSales key rs k, groupProfit key rs k,
      profitMargin (groupProfit key rs k) (groupSales key rs k)⟩

/-- Model of the loss drill-downs (lines 182-186 and 226-230): pre-filter
`Profit < 0`, then the same aggregation.  The scalar guard
`... if not df.empty else 0` only changes the empty table, whose column
assignment produces no rows either way. -/
def lossAggregateBy (key : Record → String) (rs : List Record) : List AggRow :=
  aggregateBy key (rs.filter fun r => r.profit < 0)

/-- Overview-tab total sales `raw[Sales].sum()` (line 103). -/
def total_sales (rs : List Record) : Rat := (rs.map Record.sales).sum

/-- Overview-tab total profit `raw[Profit].sum()` (line 104). -/
def total_profit (rs : List Record) : Rat := (rs.map Record.profit).sum

/-- Overview-tab overall margin (line 105), the one margin computation in the
script that does guard division by zero:
`(total_profit / total_sales) * 100 if total_sales != 0 else 0`. -/
def overall_profit_margin (rs : List Record) : Rat :=
  if total_sales rs ≠ 0 then total_profit rs / total_sales rs * 100 else 0

/-- The bin edges of the discount ranges (line 289):
`bins = [0, 0.1, ..., 1.0]`, so bucket `i` spans `[i/10, (i+1)/10)` under
`pd.cut(..., right=False)`. -/
def bucketPred (x : Rat) (i : Nat) : Bool :=
  decide ((i : Rat) / 10 ≤ x) && decide (x < ((i : Rat) + 1) / 10)

/-- Model of `pd.cut(discount, bins, labels, right=False)` on one value
(line 294): the value is assigned the first (equivalently, the unique) of the
ten left-closed right-open bins containing it, and `none` (NaN) when no bin
contains it — in particular the last bin is `[0.9, 1.0)`, excluding `1.0`. -/
def discountBucket (x : Rat) : Option Nat :=
  (List.range 10).find? (bucketPred x)

/-- The `Discount_Range` value of one record: NaN discount stays NaN. -/
def discountRangeOf (r : Record) : Option Nat :=
  r.discount.bind discountBucket

/-- Model of the discount-impact aggregation (lines 296-300):
`groupby(Discount_Range)` on the categorical bucket column produces one row
per bucket label, in bucket order, while rows whose bucket is NaN (discount
missing or outside every bin) are silently dropped from every group. -/
def discount_impact_df (rs : List Record) : List AggRow :=
  (List.range 10).map fun i =>
    let grp := rs.filter fun r => discountRangeOf r = some i
    ⟨toString i, (grp.map Record.sales).sum, (grp.map Record.profit).sum,
      profitMargin (grp.map Record.profit).sum (grp.map Record.sales).sum⟩

/-- Per-row `Shipping Time` column `(Ship Date - Order Date).dt.days`
(line 319): NaN when either date is missing. -/
def shippingTime (r : Record) : Option Int :=
  match r.shipDate, r.orderDate with
  | some sd, some od => some (sd - od)
  | _, _ => none

/-- Pandas column mean: NaN entries are skipped, the mean of an empty (or
all-NaN) column is NaN. -/
def meanList (l : List Rat) : Option Rat :=
  if l = [] then none else some (l.sum / (l.length : Rat))

/-- Pandas column median: middle element of the sorted values when their
count is odd, average of the two middle elements when even, NaN when empty. -/
def medianList (l : List Rat) : Option Rat :=
  let s := List.insertionSort (· ≤ ·) l
  if s = [] then none
  else
    let n := s.length
    if n % 2 = 1 then s.get? (n / 2)
    else do
      let a ← s.get? (n / 2 - 1)
      let b ← s.get? (n / 2)
      pure ((a + b) / 2)

/-- One output row of the ship-mode aggregation (lines 321-326). -/
structure ShipRow where
  key : String
  sales : Rat
  profit : Rat
  avgTime : Option Rat
  margin : Option Rat
deriving DecidableEq, Repr

/-- Non-NaN shipping durations of the records in `rs`, as rationals. -/
def durationsOf (rs : List Record) : List Rat :=
  rs.filterMap fun r => (shippingTime r).map fun d => (d : Rat)

/-- Model of the ship-mode aggregation `ship_mode_df` (lines 321-326):
group by `Ship Mode`, sum sales and profit, take the mean shipping time
(NaN-skipping), then the unguarded margin division. -/
def ship_mode_df (rs : List Record) : List ShipRow :=
  (keysOf Record.shipMode rs).map fun k =>
    let grp := rs.filter fun r => r.shipMode = k
    ⟨k, (grp.map Record.sales).sum, (grp.map Record.profit).sum,
      meanList (durationsOf grp),
      profitMargin (grp.map Record.profit).sum (grp.map Record.sales).sum⟩

/-- Overall mean shipping time `raw[Shipping Time].mean()` (line 336). -/
def avg_shipping_time (rs : List Record) : Option Rat :=
  meanList (durationsOf rs)

/-- Overall median shipping time `raw[Shipping Time].median()` (line 337). -/
def median_shipping_time (rs : List Record) : Option Rat :=
  medianList (durationsOf rs)

/-- Civil date to day count (days since 1970-01-01, proleptic Gregorian) —
the arithmetic pandas timestamps perform when two date columns are
subtracted and `.dt.days` is taken. -/
def daysFromCivil (y m d : Int) : Int :=
  let y := if m ≤ 2 then y - 1 else y
  let era := (if 0 ≤ y then y else y - 399) / 400
  let yoe := y - era * 400
  let mp := (m + 9) % 12
  let doy := (153 * mp + 2) / 5 + d - 1
  let doe := yoe * 365 + yoe / 4 - yoe / 100 + doy
  era * 146097 + doe - 719468

/-- The three columns selected for the correlation view (line 274), restricted
by `dropna()` to rows where all three are present — after loading, sales and
profit are always present, so exactly the rows with a non-NaN discount
survive (line 275). -/
def numeric_df (rs : List Record) : List (Rat × Rat × Rat) :=
  rs.filterMap fun r => (r.discount).map fun d => (r.sales, r.profit, d)

/-- Guard of the correlation view (line 277): the Pearson matrix is computed
whenever `numeric_df` is non-empty — the only skip condition is emptiness. -/
def correlationViewComputes (rs : List Record) : Bool :=
  !(numeric_df rs).isEmpty

/-- Pandas Pearson correlation between two equal-length columns produces a
finite value only when both columns have at least two entries and neither is
constant; otherwise the matrix entry is NaN (`none`).  The value itself
involves a square root, so only the definedness and the squared value are
modelled: `some (sign, c²)` with `c² = cov² / (var x * var y)`. -/
def pearsonSq (xs ys : List Rat) : Option (Int × Rat) :=
  let n : Rat := xs.length
  if xs.length < 2 then none
  else
    let mx := xs.sum / n
    let my := ys.sum / n
    let vx := ((xs.map fun a => (a - mx) ^ 2).sum)
    let vy := ((ys.map fun a => (a - my) ^ 2).sum)
    let cov := ((xs.zip ys).map fun p => (p.1 - mx) * (p.2 - my)).sum
    if vx = 0 ∨ vy = 0 then none
    else some (if cov < 0 then -1 else 1, cov ^ 2 / (vx * vy))

/-- The columns of the source table that the script references. -/
inductive Col where
  | orderDate
  | shipDate
  | shipMode
  | sales
  | profit
  | discount
  | category
  | subCategory
  | region
  | state
  | segment
deriving DecidableEq, Repr

/-- Which of the output units of the seven tabs a script run rendered. -/
structure RenderedViews where
  overviewKpis : Bool
  yearlyChart : Bool
  categoryView : Bool
  subcategoryChart : Bool
  lossSubcategoriesTable : Bool
  regionView : Bool
  lossStatesTable : Bool
  segmentView : Bool
  correlationMatrix : Bool
  discountImpactChart : Bool
  shipModeView : Bool
  recommendations : Bool
deriving DecidableEq, Repr

/-- No view output at all (what a halted load leaves on screen). -/
def noViews : RenderedViews :=
  ⟨false, false, false, false, false, false, false, false, false, false, false, false⟩

/-- Model of one full script run as a function of which columns the loaded
table has: which view outputs render, plus `some msg` when the run aborts (a
fatal `st.stop` in the loader, or an uncaught exception mid-script, after
which no later view renders).  Faithful to the control flow of src/site.py:
the loader dropna on Sales/Profit raises a KeyError when either column is
absent, caught by the blanket `except` and turned into `st.stop`
(lines 44 and 50-52); the overview KPIs read Sales/Profit unguarded
(lines 103-105); the yearly chart is guarded on Order Date (line 118); the
category view is guarded on Category (line 145); the sub-category block is
guarded on Sub-Category only, yet its loss table also groups by Category
(lines 167 and 182), an uncaught KeyError when Category is absent; region,
state, segment, discount and shipping views carry their own guards
(lines 204, 225, 243, 270, 317); the recommendations tab reads no column. -/
def renderScript (cols : List Col) : RenderedViews × Option String :=
  if ¬(Col.sales ∈ cols ∧ Col.profit ∈ cols) then
    (noViews, some "fatal load error: dropna KeyError, st.stop")
  else if Col.subCategory ∈ cols ∧ Col.category ∉ cols then
    (⟨true, decide (Col.orderDate ∈ cols), decide (Col.category ∈ cols), true,
      false, false, false, false, false, false, false, false⟩,
     some "uncaught KeyError: Category")
  else
    (⟨true,
      decide (Col.orderDate ∈ cols),
      decide (Col.category ∈ cols),
      decide (Col.subCategory ∈ cols),
      decide (Col.subCategory ∈ cols),
      decide (Col.region ∈ cols),
      decide (Col.state ∈ cols),
      decide (Col.segment ∈ cols),
      decide (Col.discount ∈ cols ∧ Col.profit ∈ cols ∧ Col.sales ∈ cols),
      decide (Col.discount ∈ cols ∧ Col.profit ∈ cols ∧ Col.sales ∈ cols),
      decide (Col.shipMode ∈ cols ∧ Col.orderDate ∈ cols ∧ Col.shipDate ∈ cols),
      true⟩,
     none)

/-- The module-level bindings after the load step (line 56): the loader
result is bound to the name `dataset_superstore` and nothing else is
defined. -/
def moduleBindings (data : List Record) : List (String × List Record) :=
  [("dataset_superstore", data)]

/-- Python name lookup in the module namespace: `none` models a NameError. -/
def lookupName (env : List (String × List Record)) (n : String) : Option (List Record) :=
  (env.find? fun p => p.1 = n).map Prod.snd

/-- What every view evaluates first: the name `raw_superstore_data`
(e.g. line 103, `raw_superstore_data[Sales].sum()`). -/
def viewDataLookup (data : List Record) : Option (List Record) :=
  lookupName (moduleBindings data) "raw_superstore_data"

/-- The in-memory table a rendering pass works on: the loaded record rows
plus the derived columns that view code has assigned onto the table so far. -/
structure DataTable where
  base : List Record
  extraCols : List String
deriving DecidableEq, Repr

/-- Column assignment `df[c] = ...`: adds the column when absent, otherwise
overwrites it in place. -/
def addCol (cols : List String) (c : String) : List String :=
  if c ∈ cols then cols else cols ++ [c]

/-- The category view as a step on the table state (lines 146-150): it only
reads the table. -/
def categoryViewStep (t : DataTable) : DataTable × List AggRow :=
  (t, aggregateBy Record.category t.base)

/-- The region view as a step on the table state (lines 205-209). -/
def regionViewStep (t : DataTable) : DataTable × List AggRow :=
  (t, aggregateBy Record.region t.base)

/-- The segment view as a step on the table state (lines 244-248). -/
def segmentViewStep (t : DataTable) : DataTable × List AggRow :=
  (t, aggregateBy Record.segment t.base)

/-- The loss-states view as a step on the table state (lines 226-230). -/
def lossStatesViewStep (t : DataTable) : DataTable × List AggRow :=
  (t, lossAggregateBy Record.state t.base)

/-- The discount view as a step on the table state: line 294 assigns the
derived `Discount_Range` column onto the raw table itself before grouping. -/
def discountViewStep (t : DataTable) : DataTable × List AggRow :=
  ({ t with extraCols := addCol t.extraCols "Discount_Range" },
   discount_impact_df t.base)

/-- The shipping view as a step on the table state: line 319 assigns the
derived `Shipping Time` column onto the raw table itself before grouping. -/
def shippingViewStep (t : DataTable) : DataTable × List ShipRow :=
  ({ t with extraCols := addCol t.extraCols "Shipping Time" },
   ship_mode_df t.base)

/-- The record a raw row contributes after a successful load (the per-row
composition of the coercions and the dropna filter, for rows whose order
date is parseable). -/
def loadedRow (r : RawRecord) : Option Record :=
  keepRow r (toDatetimeCoerce r.orderDate, toDatetimeCoerce r.shipDate,
    toNumericCoerce r.sales, toNumericCoerce r.profit, toNumericCoerce r.discount)

/-- Model of the two-decimal percent formatting `formatar_percentual`
(line 63) at the numeric level: round to two decimal places (half-up; the
concrete values below are away from ties, where Python rounds half-even). -/
def formatPct2 (q : Rat) : Rat := (⌊q * 100 + 1 / 2⌋ : Rat) / 100

/-- A record whose group has zero summed sales and nonzero profit. -/
def rec0 : Record :=
  ⟨none, none, "Standard Class", 0, 5, none, "A", "SA", "West", "CA", "Consumer"⟩

/-- A record with a discount of exactly 1.0 (the edge `pd.cut` drops). -/
def recD1 : Record :=
  ⟨none, none, "Standard Class", 10, 5, some 1, "A", "SA", "West", "CA", "Consumer"⟩

/-- A record with a discount of 0, inside the first bucket. -/
def recD0 : Record :=
  ⟨none, none, "Standard Class", 10, 5, some 0, "A", "SA", "West", "CA", "Consumer"⟩

/-- The record set of the spec example for the category aggregation. -/
def ex5 : List Record :=
  [⟨none, none, "Standard Class", 100, 20, none, "A", "SA", "West", "CA", "Consumer"⟩,
   ⟨none, none, "Standard Class", 200, -10, none, "A", "SA", "West", "CA", "Consumer"⟩,
   ⟨none, none, "Standard Class", 50, 5, none, "B", "SB", "West", "CA", "Consumer"⟩]

/-- A raw row whose order date is unparseable but whose sales and profit are
fine. -/
def rawBadOrderDate : RawRecord :=
  ⟨Cell.bad, Cell.val 10, "Standard Class", Cell.val 100, Cell.val 20, Cell.val 0,
   "A", "SA", "West", "CA", "Consumer"⟩

/-- A fully parseable raw row. -/
def rawGood : RawRecord :=
  ⟨Cell.val 0, Cell.val 4, "Standard Class", Cell.val 100, Cell.val 20, Cell.val 0,
   "A", "SA", "West", "CA", "Consumer"⟩

/-- A raw row whose sales cell is unparseable. -/
def rawBadSales : RawRecord :=
  ⟨Cell.val 0, Cell.val 4, "Standard Class", Cell.bad, Cell.val 20, Cell.val 0,
   "A", "SA", "West", "CA", "Consumer"⟩

/-- A single record with all three correlation columns present. -/
def recCorr : Record :=
  ⟨none, none, "Standard Class", 100, 20, some (1 / 5), "A", "SA", "West", "CA", "Consumer"⟩

/-- Shipping example row 1: ordered 2024-01-01, shipped 2024-01-05. -/
def shipRec1 : Record :=
  ⟨some (daysFromCivil 2024 1 1), some (daysFromCivil 2024 1 5), "Standard Class",
   100, 10, none, "A", "SA", "West", "CA", "Consumer"⟩

/-- Shipping example row 2: ordered 2024-01-01, shipped 2024-01-07. -/
def shipRec2 : Record :=
  ⟨some (daysFromCivil 2024 1 1), some (daysFromCivil 2024 1 7), "Standard Class",
   50, 5, none, "A", "SA", "West", "CA", "Consumer"⟩

/-- The two-row shipping example record set. -/
def shipEx : List Record := [shipRec1, shipRec2]

/-- All eleven referenced columns except `Category`. -/
def colsNoCategory : List Col :=
  [Col.orderDate, Col.shipDate, Col.shipMode, Col.sales, Col.profit,
   Col.discount, Col.subCategory, Col.region, Col.state, Col.segment]

theorem sum_map_add_distrib {α : Type} (l : List α) (f g : α → Rat) :
    (l.map fun x => f x + g x).sum = (l.map f).sum + (l.map g).sum := by
  induction l with
  | nil => simp
  | cons a l ih => simp [ih]; ring

theorem sum_map_ite_single {β : Type} [DecidableEq β] {K : List β} {a : β} (c : Rat)
    (hnd : K.Nodup) (ha : a ∈ K) :
    (K.map fun k => if a = k then c else 0).sum = c := by
  induction K with
  | nil => cases ha
  | cons b K ih =>
    rcases List.mem_cons.mp ha with h | h
    · subst h
      have hz : (K.map fun k => if a = k then c else 0).sum = 0 := by
        apply List.sum_eq_zero
        intro x hx
        rcases List.mem_map.mp hx with ⟨k, hk, hke⟩
        have : a ≠ k := fun e => (List.nodup_cons.mp hnd).1 (e ▸ hk)
        simp [this] at hke
        exact hke.symm
      simp [hz]
    · have hab : a ≠ b := fun e => (List.nodup_cons.mp hnd).1 (e ▸ h)
      simp [hab, ih (List.nodup_cons.mp hnd).2 h]

theorem sum_partition {α β : Type} [DecidableEq β] (key : α → β) (f : α → Rat)
    (K : List β) (hnd : K.Nodup) :
    ∀ rs : List α, (∀ r ∈ rs, key r ∈ K) →
      (K.map fun k => ((rs.filter fun r => key r = k).map f).sum).sum = (rs.map f).sum := by
  intro rs
  induction rs with
  | nil => intro _; simp
  | cons r rs ih =>
    intro hc
    have h2 : ∀ k, (((r :: rs).filter fun x => key x = k).map f).sum
        = (if key r = k then f r else 0) + ((rs.filter fun x => key x = k).map f).sum := by
      intro k
      by_cases h : key r = k <;> simp [List.filter_cons, h]
    calc (K.map fun k => (((r :: rs).filter fun x => key x = k).map f).sum).sum
        = (K.map fun k =>
            (if key r = k then f r else 0) + ((rs.filter fun x => key x = k).map f).sum).sum := by
          exact congrArg List.sum (List.map_congr_left fun k _ => h2 k)
      _ = (K.map fun k => if key r = k then f r else 0).sum
            + (K.map fun k => ((rs.filter fun x => key x = k).map f).sum).sum :=
          sum_map_add_distrib K _ _
      _ = f r + (rs.map f).sum := by
          rw [sum_map_ite_single (f r) hnd (hc r (by simp)),
            ih fun x hx => hc x (List.mem_cons_of_mem r hx)]
      _ = ((r :: rs).map f).sum := by simp

/-- C1: the loader binds its result to `dataset_superstore` (line 56) while
every view reads the undefined name `raw_superstore_data` (first at
line 103): the lookup fails for every successfully loaded dataset, so the
first view computation raises a NameError instead of computing the
total-sales KPI. -/
theorem views_read_undefined_name (data : List Record) :
    viewDataLookup data = none := rfl

/-- C7 counterexample: load a table with every referenced column except
`Category`.  The sub-category block is guarded only on `Sub-Category`, yet
its loss table groups by `Category`, so the run aborts with an uncaught
KeyError and the segment view (whose column is present) never renders —
contradicting the claim that only computations depending on the absent
column are skipped. -/
theorem missing_category_crashes_run :
    (renderScript colsNoCategory).2 = some "uncaught KeyError: Category" ∧
    Col.segment ∈ colsNoCategory ∧
    (renderScript colsNoCategory).1.segmentView = false ∧
    (renderScript [Col.orderDate, Col.shipDate, Col.shipMode, Col.profit,
        Col.discount, Col.category, Col.subCategory, Col.region, Col.state,
        Col.segment]).1 = noViews := by
  refine ⟨by decide, by decide, by decide, by decide⟩

/-- C7 amended: when sales and profit are present (otherwise the loader
itself halts the run) and `Category` accompanies `Sub-Category` (otherwise
the loss-subcategories table raises an uncaught KeyError), the run completes
without aborting and each remaining view renders exactly when its required
columns are present. -/
theorem renderScript_guards (cols : List Col)
    (hs : Col.sales ∈ cols) (hp : Col.profit ∈ cols)
    (hsc : Col.subCategory ∈ cols → Col.category ∈ cols) :
    (renderScript cols).2 = none ∧
    (renderScript cols).1.overviewKpis = true ∧
    (renderScript cols).1.recommendations = true ∧
    ((renderScript cols).1.yearlyChart = true ↔ Col.orderDate ∈ cols) ∧
    ((renderScript cols).1.categoryView = true ↔ Col.category ∈ cols) ∧
    ((renderScript cols).1.subcategoryChart = true ↔ Col.subCategory ∈ cols) ∧
    ((renderScript cols).1.lossSubcategoriesTable = true ↔ Col.subCategory ∈ cols) ∧
    ((renderScript cols).1.regionView = true ↔ Col.region ∈ cols) ∧
    ((renderScript cols).1.lossStatesTable = true ↔ Col.state ∈ cols) ∧
    ((renderScript cols).1.segmentView = true ↔ Col.segment ∈ cols) ∧
    ((renderScript cols).1.correlationMatrix = true ↔ Col.discount ∈ cols) ∧
    ((renderScript cols).1.discountImpactChart = true ↔ Col.discount ∈ cols) ∧
    ((renderScript cols).1.shipModeView = true ↔
      (Col.shipMode ∈ cols ∧ Col.orderDate ∈ cols ∧ Col.shipDate ∈ cols)) := by
  have h1 : ¬¬(Col.sales ∈ cols ∧ Col.profit ∈ cols) := not_not.mpr ⟨hs, hp⟩
  have h2 : ¬(Col.subCategory ∈ cols ∧ Col.category ∉ cols) := by
    rintro ⟨ha, hb⟩; exact hb (hsc ha)
  simp only [renderScript, if_neg h1, if_neg h2]
  simp [hs, hp]

/-- C7 witness: instantiate the guard theorem at the full column set. -/
theorem renderScript_guards_witness :
    (renderScript (colsNoCategory ++ [Col.category])).2 = none ∧
    ((renderScript (colsNoCategory ++ [Col.category])).1.segmentView = true ↔
      Col.segment ∈ colsNoCategory ++ [Col.category]) := by
  have h := renderScript_guards (colsNoCategory ++ [Col.category])
    (by decide) (by decide) (fun _ => by decide)
  exact ⟨h.1, h.2.2.2.2.2.2.2.2.2.1⟩

/-- C8 counterexample: a single record with all of sales, profit and
discount present leaves exactly one valid row after the dropna, which is
fewer than 2 — yet the guard at line 277 only tests emptiness, so the
correlation matrix is computed rather than skipped. -/
theorem correlation_computed_on_one_row :
    (numeric_df [recCorr]).length = 1 ∧
    correlationViewComputes [recCorr] = true := ⟨rfl, rfl⟩

/-- C8 amended: the correlation view works on exactly the three columns
sales/profit/discount restricted to rows where all three are present (after
loading, only the discount can be missing); it is skipped with a warning
exactly when zero valid rows remain — a single valid row is still computed,
producing an all-NaN matrix since Pearson needs at least two points. -/
theorem correlationView_skip_condition (rs : List Record) :
    (correlationViewComputes rs = false ↔ numeric_df rs = []) ∧
    (numeric_df rs = [] ↔ ∀ r ∈ rs, r.discount = none) ∧
    (∀ xs ys : List Rat, xs.length < 2 → pearsonSq xs ys = none) := by
  refine ⟨?_, ?_, ?_⟩
  · simp [correlationViewComputes, List.isEmpty_iff]
  · unfold numeric_df
    rw [List.filterMap_eq_nil_iff]
    constructor
    · intro h r hr
      have := h r hr
      simpa using this
    · intro h r hr
      simp [h r hr]
  · intro xs ys h
    simp [pearsonSq, h]

/-- C8 amended witness: instantiated at the empty record set and the empty
column pair. -/
theorem correlationView_skip_condition_witness :
    (correlationViewComputes [] = false ↔ numeric_df ([] : List Record) = []) ∧
    pearsonSq [] [] = none := by
  have h := correlationView_skip_condition []
  exact ⟨h.1, h.2.2 [] [] (by decide)⟩

/-- C10 counterexample: rendering the discount view assigns the derived
`Discount_Range` column onto the raw table in place (line 294), so the raw
table is not left unchanged — a column is added to it. -/
theorem discountView_mutates_table :
    (discountViewStep ⟨[], []⟩).1 ≠ ⟨[], []⟩ ∧
    (discountViewStep ⟨[], []⟩).1.extraCols = ["Discount_Range"] ∧
    (shippingViewStep ⟨[], []⟩).1.extraCols = ["Shipping Time"] := by
  refine ⟨?_, rfl, rfl⟩
  intro h
  have : (discountViewStep ⟨[], []⟩).1.extraCols = ([] : List String) := by rw [h]
  simp [discountViewStep, addCol] at this

/-- C10 amended: the categorical aggregations are pure reads of the table,
and no view ever modifies the loaded record rows or an existing column; the
discount and shipping views, however, each write one derived column
(`Discount_Range`, `Shipping Time`) onto the raw table in place. -/
theorem views_preserve_base_table (t : DataTable) :
    (categoryViewStep t).1 = t ∧
    (regionViewStep t).1 = t ∧
    (segmentViewStep t).1 = t ∧
    (lossStatesViewStep t).1 = t ∧
    (discountViewStep t).1.base = t.base ∧
    (discountViewStep t).1.extraCols = addCol t.extraCols "Discount_Range" ∧
    (shippingViewStep t).1.base = t.base ∧
    (shippingViewStep t).1.extraCols = addCol t.extraCols "Shipping Time" :=
  ⟨rfl, rfl, rfl, rfl, rfl, rfl, rfl, rfl⟩

/-- C2 counterexample: grouping a record set whose only group has summed
sales 0 and profit 5 produces a margin that is NaN/±infinity (`none`), not
the 0 the claim requires. -/
theorem zero_sales_margin_not_zero :
    ∃ row ∈ aggregateBy Record.category [rec0],
      row.sales = 0 ∧ row.margin ≠ some 0 := by
  refine ⟨⟨"A", groupSales Record.category [rec0] "A",
    groupProfit Record.category [rec0] "A",
    profitMargin (groupProfit Record.category [rec0] "A")
      (groupSales Record.category [rec0] "A")⟩, ?_, ?_, ?_⟩
  · simp [aggregateBy, keysOf, rec0]
  · simp [groupSales, rec0]
  · have hs : groupSales Record.category [rec0] "A" = 0 := by simp [groupSales, rec0]
    simp [profitMargin, hs]

/-- C2 amended: the per-group margin division at lines 150/186/209/230/248/
300/326 carries no zero guard, so an aggregate row with zero summed sales
gets a NaN/±infinite margin (never a raised exception); the margin is 0 on
zero sales only in the two guarded places — the loss drill-downs when the
filtered set is empty (which then produce no rows at all) and the overview
KPI when total sales is 0. -/
theorem margin_on_zero_sales (key : Record → String) (rs : List Record) :
    (∀ row ∈ aggregateBy key rs, row.sales = 0 → row.margin = none) ∧
    ((rs.filter fun r => r.profit < 0) = [] → lossAggregateBy key rs = []) ∧
    (total_sales rs = 0 → overall_profit_margin rs = 0) := by
  refine ⟨?_, ?_, ?_⟩
  · intro row hrow hz
    rcases List.mem_map.mp hrow with ⟨k, _, hk⟩
    subst hk
    simp only [AggRow.sales] at hz
    simp [profitMargin, hz]
  · intro h
    simp [lossAggregateBy, h, aggregateBy, keysOf]
  · intro h
    simp [overall_profit_margin, h]

/-- C2 amended witness: the single-record group with sales 0 and profit 5
has an undefined margin; the loss view over a profit-free set is empty; the
overview margin of the empty table is 0. -/
theorem margin_on_zero_sales_witness :
    profitMargin (groupProfit Record.category [rec0] "A")
      (groupSales Record.category [rec0] "A") = none ∧
    lossAggregateBy Record.category [] = [] ∧
    overall_profit_margin [] = 0 := by
  have h := margin_on_zero_sales Record.category [rec0]
  have h0 := margin_on_zero_sales Record.category []
  refine ⟨?_, h0.2.1 rfl, h0.2.2 rfl⟩
  exact h.1 ⟨"A", groupSales Record.category [rec0] "A",
    groupProfit Record.category [rec0] "A",
    profitMargin (groupProfit Record.category [rec0] "A")
      (groupSales Record.category [rec0] "A")⟩
    (by simp [aggregateBy, keysOf, rec0]) (by simp [groupSales, rec0])

theorem bucketPred_iff (x : Rat) (i : Nat) :
    bucketPred x i = true ↔ ((i : Rat) / 10 ≤ x ∧ x < ((i : Rat) + 1) / 10) := by
  simp [bucketPred]

theorem bucketPred_unique {x : Rat} {i j : Nat}
    (hi : bucketPred x i = true) (hj : bucketPred x j = true) : i = j := by
  rw [bucketPred_iff] at hi hj
  have h1 : (i : Rat) < (j : Rat) + 1 := by
    have := lt_of_le_of_lt hi.1 hj.2
    linarith
  have h2 : (j : Rat) < (i : Rat) + 1 := by
    have := lt_of_le_of_lt hj.1 hi.2
    linarith
  have h1n : i < j + 1 := by exact_mod_cast h1
  have h2n : j < i + 1 := by exact_mod_cast h2
  omega

theorem discountBucket_isSome_of (x : Rat) (h0 : 0 ≤ x) (h1 : x < 1) :
    ∃ i, i < 10 ∧ discountBucket x = some i := by
  have hnn : (0 : Int) ≤ ⌊x * 10⌋ := Int.floor_nonneg.mpr (by nlinarith)
  have hlt : ⌊x * 10⌋ < 10 := by
    have : x * 10 < 10 := by nlinarith
    exact Int.floor_lt.mpr (by exact_mod_cast this)
  have hcast : (((⌊x * 10⌋).toNat : Nat) : Rat) = ((⌊x * 10⌋ : Int) : Rat) := by
    exact_mod_cast congrArg Int.cast (Int.toNat_of_nonneg hnn)
  have hip : bucketPred x (⌊x * 10⌋).toNat = true := by
    rw [bucketPred_iff]
    constructor
    · rw [div_le_iff (by norm_num : (0 : Rat) < 10), hcast]
      exact Int.floor_le (x * 10)
    · rw [lt_div_iff (by norm_num : (0 : Rat) < 10), hcast]
      exact Int.lt_floor_add_one (x * 10)
  have hi10 : (⌊x * 10⌋).toNat < 10 := by omega
  have hsome : (discountBucket x).isSome :=
    List.find?_isSome.mpr ⟨(⌊x * 10⌋).toNat, List.mem_range.mpr hi10, hip⟩
  rcases Option.isSome_iff_exists.mp hsome with ⟨j, hj⟩
  exact ⟨j, List.mem_range.mp (List.mem_of_find?_eq_some hj), hj⟩

theorem discountBucket_one_eq_none : discountBucket (1 : Rat) = none := by
  rw [discountBucket, List.find?_eq_none]
  intro i hi
  rw [bucketPred_iff]
  rintro ⟨-, h2⟩
  rw [lt_div_iff (by norm_num : (0 : Rat) < 10)] at h2
  have hi9 : i < 10 := List.mem_range.mp hi
  have : ((i : Rat) + 1) ≤ 10 := by exact_mod_cast hi9
  linarith

theorem discountBucket_tenth : discountBucket (1 / 10 : Rat) = some 1 := by
  have h0 : ¬ bucketPred (1 / 10 : Rat) 0 = true := by
    rw [bucketPred_iff]
    rintro ⟨-, h2⟩
    norm_num at h2
  have h1 : bucketPred (1 / 10 : Rat) 1 = true := by
    rw [bucketPred_iff]
    constructor <;> norm_num
  rw [discountBucket, show List.range 10 = 0 :: 1 :: [2, 3, 4, 5, 6, 7, 8, 9] from rfl,
    List.find?_cons_of_neg _ h0, List.find?_cons_of_pos _ h1]

/-- C3 counterexample: the discount value `1.0` lies in the claimed domain
`[0, 1]` but is assigned to no bucket at all — `pd.cut(..., right=False)`
makes the last bin `[0.9, 1.0)`, so `1.0` becomes NaN instead of falling in
the tenth bucket. -/
theorem discount_one_unbucketed :
    discountBucket (1 : Rat) = none ∧ (0 : Rat) ≤ 1 ∧ (1 : Rat) ≤ 1 :=
  ⟨discountBucket_one_eq_none, by norm_num, le_refl 1⟩

/-- C3 amended: the bucketing is total and disjoint on the half-open
interval `[0, 1)` — every such discount lands in exactly one of the ten
buckets, and `0.1` lands in the second bucket (index 1) — but the right
endpoint `1.0` is excluded: it belongs to no bucket (NaN), because the last
bin is `[0.9, 1.0)`. -/
theorem discountBucket_total_disjoint :
    (∀ x : Rat, 0 ≤ x → x < 1 → ∃ i, i < 10 ∧ discountBucket x = some i) ∧
    (∀ (x : Rat) (i j : Nat),
      bucketPred x i = true → bucketPred x j = true → i = j) ∧
    discountBucket (1 / 10 : Rat) = some 1 ∧
    discountBucket (1 : Rat) = none :=
  ⟨fun x h0 h1 => discountBucket_isSome_of x h0 h1,
   fun _ _ _ hi hj => bucketPred_unique hi hj,
   discountBucket_tenth, discountBucket_one_eq_none⟩

theorem bucketPred_zero_zero : bucketPred 0 0 = true := by
  rw [bucketPred_iff]
  constructor <;> norm_num

/-- C3 amended witness: totality applied at discount 0, disjointness applied
at discount 0 with the first bucket on both sides. -/
theorem discountBucket_total_disjoint_witness :
    (∃ i, i < 10 ∧ discountBucket (0 : Rat) = some i) ∧ (0 : Nat) = 0 :=
  ⟨discountBucket_total_disjoint.1 0 le_rfl (by decide),
   discountBucket_total_disjoint.2.1 0 0 0 bucketPred_zero_zero bucketPred_zero_zero⟩

theorem discountRangeOf_recD1 : discountRangeOf recD1 = none := by
  simp [discountRangeOf, recD1, discountBucket_one_eq_none]

/-- C4 counterexample: a non-empty record set whose single record carries a
discount of exactly 1.0.  Its bucket is NaN, the `groupby` on the bucket
column silently drops the row, and the bucket-wise profit total is 0 while
the record total is 5 — the discount-bucket aggregation is not a lossless
partition. -/
theorem discount_grouping_loses_profit :
    ([recD1] : List Record) ≠ [] ∧
    ((discount_impact_df [recD1]).map AggRow.profit).sum = 0 ∧
    ([recD1].map Record.profit).sum = 5 := by
  refine ⟨by simp, ?_, by simp [recD1]⟩
  have hfil : ∀ i : Nat, ([recD1].filter fun r => discountRangeOf r = some i) = [] := by
    intro i
    simp [List.filter_cons, discountRangeOf_recD1]
  simp only [discount_impact_df, List.map_map, Function.comp, hfil]
  apply List.sum_eq_zero
  intro x hx
  rcases List.mem_map.mp hx with ⟨i, _, hi⟩
  exact hi.symm

/-- C4 amended: for every non-empty record set, each of the categorical
dimension aggregations is a lossless partition of the records — bucket-wise
sums of profit (and sales) equal the record totals; the discount-bucket
aggregation is a lossless partition only of the rows whose discount lies in
`[0, 1)` (rows with a missing discount, or one outside every bin such as
exactly 1.0, are dropped by the NaN bucket), so the identity holds under
that proviso. -/
theorem aggregation_partitions_profit :
    (∀ (key : Record → String) (rs : List Record), rs ≠ [] →
      ((aggregateBy key rs).map AggRow.profit).sum = (rs.map Record.profit).sum ∧
      ((aggregateBy key rs).map AggRow.sales).sum = (rs.map Record.sales).sum) ∧
    (∀ rs : List Record, rs ≠ [] →
      (∀ r ∈ rs, ∃ d, r.discount = some d ∧ 0 ≤ d ∧ d < 1) →
      ((discount_impact_df rs).map AggRow.profit).sum = (rs.map Record.profit).sum) := by
  constructor
  · intro key rs _
    have hnd : (keysOf key rs).Nodup := List.nodup_dedup (rs.map key)
    have hc : ∀ r ∈ rs, key r ∈ keysOf key rs := fun r hr =>
      List.mem_dedup.mpr (List.mem_map_of_mem key hr)
    constructor
    · have := sum_partition key Record.profit (keysOf key rs) hnd rs hc
      simpa [aggregateBy, List.map_map, Function.comp, groupProfit] using this
    · have := sum_partition key Record.sales (keysOf key rs) hnd rs hc
      simpa [aggregateBy, List.map_map, Function.comp, groupSales] using this
  · intro rs _ hdisc
    have hnd : ((List.range 10).map some).Nodup :=
      (List.nodup_range 10).map (Option.some_injective Nat)
    have hc : ∀ r ∈ rs, discountRangeOf r ∈ (List.range 10).map some := by
      intro r hr
      rcases hdisc r hr with ⟨d, hd, hd0, hd1⟩
      rcases discountBucket_isSome_of d hd0 hd1 with ⟨i, hi10, hib⟩
      have : discountRangeOf r = some i := by
        simp [discountRangeOf, hd, hib]
      rw [this]
      exact List.mem_map.mpr ⟨i, List.mem_range.mpr hi10, rfl⟩
    have := sum_partition discountRangeOf Record.profit ((List.range 10).map some) hnd rs hc
    rw [List.map_map] at this
    simpa [discount_impact_df, List.map_map, Function.comp] using this

theorem recD0_in_range : ∀ r ∈ ([recD0] : List Record),
    ∃ d, r.discount = some d ∧ 0 ≤ d ∧ d < 1 := by
  intro r hr
  rw [List.mem_singleton.mp hr]
  exact ⟨0, rfl, le_rfl, by decide⟩

/-- C4 amended witness: the categorical conjunct at a one-record set and the
discount conjunct at a one-record set whose discount is 0. -/
theorem aggregation_partitions_profit_witness :
    (((aggregateBy Record.category [rec0]).map AggRow.profit).sum
        = ([rec0].map Record.profit).sum ∧
      ((aggregateBy Record.category [rec0]).map AggRow.sales).sum
        = ([rec0].map Record.sales).sum) ∧
    ((discount_impact_df [recD0]).map AggRow.profit).sum
        = ([recD0].map Record.profit).sum :=
  ⟨aggregation_partitions_profit.1 Record.category [rec0] (by simp),
   aggregation_partitions_profit.2 [recD0] (by simp) recD0_in_range⟩

theorem groupSales_perm (key : Record → String) {l₁ l₂ : List Record}
    (h : l₁.Perm l₂) (k : String) : groupSales key l₁ k = groupSales key l₂ k :=
  ((h.filter _).map _).sum_eq

theorem groupProfit_perm (key : Record → String) {l₁ l₂ : List Record}
    (h : l₁.Perm l₂) (k : String) : groupProfit key l₁ k = groupProfit key l₂ k :=
  ((h.filter _).map _).sum_eq

theorem aggregateBy_perm (key : Record → String) {l₁ l₂ : List Record}
    (h : l₁.Perm l₂) : (aggregateBy key l₁).Perm (aggregateBy key l₂) := by
  have hk : (keysOf key l₁).Perm (keysOf key l₂) := (h.map key).dedup
  have hmap : (keysOf key l₂).map
        (fun k => (⟨k, groupSales key l₁ k, groupProfit key l₁ k,
          profitMargin (groupProfit key l₁ k) (groupSales key l₁ k)⟩ : AggRow))
      = (keysOf key l₂).map
        (fun k => (⟨k, groupSales key l₂ k, groupProfit key l₂ k,
          profitMargin (groupProfit key l₂ k) (groupSales key l₂ k)⟩ : AggRow)) :=
    List.map_congr_left fun k _ => by
      rw [groupSales_perm key h, groupProfit_perm key h]
  unfold aggregateBy
  exact hmap ▸ hk.map _

theorem keysOf_ex5 : keysOf Record.category ex5 = ["A", "B"] := by rfl

/-- C5: the dimension aggregation yields one row per distinct dimension
value, its sums are insensitive to the input record order (record sets that
are permutations of each other give the same rows up to row order), and on
the three-record spec example grouped by `Category` it yields
`A: sales 300, profit 10, margin 10/3 %` (displayed 3.33) and
`B: sales 50, profit 5, margin 10 %` (displayed 10.00). -/
theorem aggregate_rows_spec :
    (∀ (key : Record → String) (l₁ l₂ : List Record), l₁.Perm l₂ →
      (aggregateBy key l₁).Perm (aggregateBy key l₂)) ∧
    (∀ (key : Record → String) (rs : List Record),
      ((aggregateBy key rs).map AggRow.key).Nodup) ∧
    aggregateBy Record.category ex5 =
      [⟨"A", 300, 10, some (10 / 3)⟩, ⟨"B", 50, 5, some 10⟩] ∧
    formatPct2 (10 / 3) = 333 / 100 ∧
    formatPct2 10 = 10 := by
  refine ⟨fun key l₁ l₂ h => aggregateBy_perm key h, ?_, ?_, ?_, ?_⟩
  · intro key rs
    have hkeys : ((aggregateBy key rs).map AggRow.key) = keysOf key rs := by
      rw [aggregateBy, List.map_map]
      exact (List.map_congr_left fun k _ => rfl).trans (List.map_id _)
    rw [hkeys]
    exact List.nodup_dedup _
  · have hBA : decide (("B" : String) = "A") = false := by rfl
    have hAB : decide (("A" : String) = "B") = false := by rfl
    have hsa : groupSales Record.category ex5 "A" = 300 := by
      norm_num [groupSales, ex5, List.filter_cons, hBA]
    have hpa : groupProfit Record.category ex5 "A" = 10 := by
      norm_num [groupProfit, ex5, List.filter_cons, hBA]
    have hsb : groupSales Record.category ex5 "B" = 50 := by
      norm_num [groupSales, ex5, List.filter_cons, hAB]
    have hpb : groupProfit Record.category ex5 "B" = 5 := by
      norm_num [groupProfit, ex5, List.filter_cons, hAB]
    simp only [aggregateBy, keysOf_ex5, List.map_cons, List.map_nil,
      hsa, hpa, hsb, hpb]
    norm_num [profitMargin]
  · have hfl : ⌊(10 / 3 * 100 + 1 / 2 : Rat)⌋ = 333 := by
      rw [Int.floor_eq_iff]; norm_num
    rw [formatPct2, hfl]
    norm_num
  · have hfl : ⌊(10 * 100 + 1 / 2 : Rat)⌋ = 1000 := by
      rw [Int.floor_eq_iff]; norm_num
    rw [formatPct2, hfl]
    norm_num

/-- C5 witness: order-insensitivity applied to the example record set and
the identity permutation. -/
theorem aggregate_rows_spec_witness :
    (aggregateBy Record.category ex5).Perm (aggregateBy Record.category ex5) :=
  aggregate_rows_spec.1 Record.category ex5 ex5 (List.Perm.refl ex5)

theorem coerceRow_error_iff (r : RawRecord) :
    coerceRow r = Except.error () ↔ r.orderDate = Cell.bad := by
  obtain ⟨od, sd, sm, s, p, d, c1, c2, c3, c4, c5⟩ := r
  cases od <;> simp [coerceRow, toDatetimeRaise, Bind.bind, Except.bind, pure, Except.pure]

theorem coerceRow_ok_of (r : RawRecord) (h : r.orderDate ≠ Cell.bad) :
    coerceRow r = Except.ok (toDatetimeCoerce r.orderDate, toDatetimeCoerce r.shipDate,
      toNumericCoerce r.sales, toNumericCoerce r.profit, toNumericCoerce r.discount) := by
  obtain ⟨od, sd, sm, s, p, d, c1, c2, c3, c4, c5⟩ := r
  cases od with
  | val a => rfl
  | bad => exact absurd rfl h
  | missing => rfl

theorem carregar_dados_error_iff (rows : List RawRecord) :
    carregar_dados rows = Except.error () ↔ ∃ r ∈ rows, r.orderDate = Cell.bad := by
  induction rows with
  | nil => simp [carregar_dados]
  | cons r rows ih =>
    by_cases hb : r.orderDate = Cell.bad
    · have hcr : coerceRow r = Except.error () := (coerceRow_error_iff r).mpr hb
      simp [carregar_dados, hcr, hb]
    · rw [show carregar_dados (r :: rows) = (match coerceRow r with
          | .error e => .error e
          | .ok c => match carregar_dados rows with
            | .error e => .error e
            | .ok rest => .ok ((keepRow r c).toList ++ rest)) from rfl,
        coerceRow_ok_of r hb]
      cases hcd : carregar_dados rows with
      | error e =>
        cases e
        simp only [List.mem_cons]
        constructor
        · intro _
          rcases ih.mp hcd with ⟨x, hx, hxb⟩
          exact ⟨x, Or.inr hx, hxb⟩
        · intro _
          trivial
      | ok rest =>
        simp only [List.mem_cons]
        constructor
        · intro h
          exact Except.noConfusion h
        · rintro ⟨x, hx | hx, hxb⟩
          · exact absurd (hx ▸ hxb) hb
          · have herr := ih.mpr ⟨x, hx, hxb⟩
            rw [hcd] at herr
            exact Except.noConfusion herr

theorem carregar_dados_ok (rows : List RawRecord)
    (h : ∀ r ∈ rows, r.orderDate ≠ Cell.bad) :
    carregar_dados rows = Except.ok (rows.filterMap loadedRow) := by
  induction rows with
  | nil => simp [carregar_dados]
  | cons r rows ih =>
    have hb : r.orderDate ≠ Cell.bad := h r (by simp)
    rw [show carregar_dados (r :: rows) = (match coerceRow r with
          | .error e => .error e
          | .ok c => match carregar_dados rows with
            | .error e => .error e
            | .ok rest => .ok ((keepRow r c).toList ++ rest)) from rfl,
      coerceRow_ok_of r hb, ih fun x hx => h x (List.mem_cons_of_mem r hx)]
    change Except.ok ((loadedRow r).toList ++ List.filterMap loadedRow rows)
        = Except.ok (List.filterMap loadedRow (r :: rows))
    rw [List.filterMap_cons]
    cases hlr : loadedRow r <;> simp [hlr]

theorem loadedRow_none_of_bad_sales (r : RawRecord)
    (h : toNumericCoerce r.sales = none) : loadedRow r = none := by
  unfold loadedRow
  rw [h]
  rfl

theorem loadedRow_some_iff (r : RawRecord) :
    (∃ rec, loadedRow r = some rec) ↔
      (toNumericCoerce r.sales).isSome ∧ (toNumericCoerce r.profit).isSome := by
  unfold loadedRow keepRow
  cases toNumericCoerce r.sales <;> cases toNumericCoerce r.profit <;> simp

/-- C6 counterexample: a raw row whose order date cell is unparseable but
whose every other field is healthy makes the whole load fail fatally —
`pd.to_datetime` is called on `Order Date` with the default raising mode
(line 31), not with errors=coerce, so the value does not become missing. -/
theorem bad_order_date_fatal :
    carregar_dados [rawBadOrderDate] = Except.error () ∧
    toNumericCoerce rawBadOrderDate.sales = some 100 ∧
    toNumericCoerce rawBadOrderDate.profit = some 20 :=
  ⟨rfl, rfl, rfl⟩

/-- C6 amended: ship date, sales, profit and discount are coerced with
non-parseable values becoming missing, and rows missing sales or profit
after coercion are excluded (so a record with unparseable sales reaches no
downstream aggregate); order date, however, is converted with the default
raising `pd.to_datetime`, so any unparseable order date aborts the entire
load with a fatal error instead of becoming missing. -/
theorem loader_coercion_policy (rows : List RawRecord) :
    (carregar_dados rows = Except.error () ↔ ∃ r ∈ rows, r.orderDate = Cell.bad) ∧
    ((∀ r ∈ rows, r.orderDate ≠ Cell.bad) →
      carregar_dados rows = Except.ok (rows.filterMap loadedRow)) ∧
    (∀ r : RawRecord, toNumericCoerce r.sales = none → loadedRow r = none) ∧
    (∀ r : RawRecord, (∃ rec, loadedRow r = some rec) ↔
      (toNumericCoerce r.sales).isSome ∧ (toNumericCoerce r.profit).isSome) :=
  ⟨carregar_dados_error_iff rows,
   fun h => carregar_dados_ok rows h,
   fun r h => loadedRow_none_of_bad_sales r h,
   fun r => loadedRow_some_iff r⟩

/-- C6 amended witness: a two-row table with one healthy row and one row of
unparseable sales loads successfully, and the bad-sales row contributes no
record. -/
theorem loader_coercion_policy_witness :
    carregar_dados [rawGood, rawBadSales]
        = Except.ok ([rawGood, rawBadSales].filterMap loadedRow) ∧
    loadedRow rawBadSales = none :=
  ⟨(loader_coercion_policy [rawGood, rawBadSales]).2.1 (by decide),
   (loader_coercion_policy [rawGood, rawBadSales]).2.2.1 rawBadSales rfl⟩

theorem days_example : daysFromCivil 2024 1 5 - daysFromCivil 2024 1 1 = 4 := by decide

theorem days_example7 : daysFromCivil 2024 1 7 - daysFromCivil 2024 1 1 = 6 := by decide

theorem durationsOf_shipEx : durationsOf shipEx = [4, 6] := by
  simp [durationsOf, shipEx, shipRec1, shipRec2, shippingTime, days_example, days_example7]

theorem sort_four_six : List.insertionSort (· ≤ ·) [(4 : Rat), 6] = [4, 6] := by
  norm_num [List.insertionSort, List.orderedInsert]

/-- C9: the shipping view derives per-row duration as ship date minus order
date in calendar days (2024-01-01 to 2024-01-05 is 4 days), aggregates mean
duration per ship mode alongside summed sales, summed profit and margin, and
reports the overall mean and median duration — on the two-row example with
durations 4 and 6 both are 5. -/
theorem shipping_view_spec :
    (∀ (r : Record) (a b : Int), r.orderDate = some a → r.shipDate = some b →
      shippingTime r = some (b - a)) ∧
    daysFromCivil 2024 1 5 - daysFromCivil 2024 1 1 = 4 ∧
    durationsOf shipEx = [4, 6] ∧
    avg_shipping_time shipEx = some 5 ∧
    median_shipping_time shipEx = some 5 ∧
    ship_mode_df shipEx = [⟨"Standard Class", 150, 15, some 5, some 10⟩] := by
  have hne : ([(4 : Rat), 6] : List Rat) ≠ [] := by simp
  have hmean : meanList [(4 : Rat), 6] = some 5 := by
    norm_num [meanList, hne]
  have hmed : medianList [(4 : Rat), 6] = some 5 := by
    norm_num [medianList, sort_four_six, hne]
  refine ⟨?_, days_example, durationsOf_shipEx, ?_, ?_, ?_⟩
  · intro r a b ha hb
    simp [shippingTime, ha, hb]
  · rw [avg_shipping_time, durationsOf_shipEx, hmean]
  · rw [median_shipping_time, durationsOf_shipEx, hmed]
  · have hk : keysOf Record.shipMode shipEx = ["Standard Class"] := rfl
    have hfil : shipEx.filter (fun r => r.shipMode = "Standard Class") = shipEx := by
      simp [shipEx, shipRec1, shipRec2]
    simp only [ship_mode_df, hk, List.map_cons, List.map_nil, hfil]
    rw [show durationsOf shipEx = [4, 6] from durationsOf_shipEx, hmean]
    norm_num [shipEx, shipRec1, shipRec2, profitMargin]

/-- C9 witness: the duration formula applied to the first example row. -/
theorem shipping_view_spec_witness :
    shippingTime shipRec1
      = some (daysFromCivil 2024 1 5 - daysFromCivil 2024 1 1) :=
  shipping_view_spec.1 shipRec1 (daysFromCivil 2024 1 1) (daysFromCivil 2024 1 5) rfl rfl
